import Mathlib

/-!
# Verification of the Quoridor rules engine

A shallow embedding of the game engine in `dist/index.js`: board as a 9×9
grid of occupancy markers indexed `board[x][y]`, pawns, walls, move and
wall legality, breadth-first path search, and the two state transitions.
Definitions mirror the JavaScript source; machine numbers that may go
negative (a pawn's remaining wall count) are modelled as `Int`, the rest
as `Nat`, with arithmetic that matches JavaScript on the values the code
manipulates.
-/

namespace Quoridor

inductive Orient where
  | h
  | v
deriving DecidableEq, Repr

structure Wall where
  x : Nat
  y : Nat
  orient : Orient
deriving DecidableEq, Repr

structure Pawn where
  id : Nat
  x : Nat
  y : Nat
  walls : Int
deriving DecidableEq, Repr

inductive MoveType where
  | normal
  | jump
deriving DecidableEq, Repr

structure Move where
  x : Nat
  y : Nat
  type : MoveType
deriving DecidableEq, Repr

/-- The board of the source: an array of 9 columns, each an array of 9
occupancy markers, read as `board[x][y]`. -/
abbrev Board := List (List Nat)

/-- `board[x][y]` (0 when out of range; the source never reads out of range). -/
def getCell (b : Board) (x y : Nat) : Nat :=
  (b.getD x []).getD y 0

/-- `board[x][y] = v`. -/
def setCell (b : Board) (x y v : Nat) : Board :=
  b.set x ((b.getD x []).set y v)

structure GameState where
  board : Board
  player0 : Pawn
  player1 : Pawn
  walls : List Wall
  currentPlayer : Nat
  wallPreview : Option Wall
  winner : Option Nat
  selectedPlayer : Option Nat
  isWallMode : Bool
deriving DecidableEq, Repr

/-- `state.players[p]` for the two-element players array. -/
def getPlayer (s : GameState) (p : Nat) : Pawn :=
  if p = 0 then s.player0 else s.player1

/-- `createInitialState` of the source. -/
def createInitialState : GameState :=
  { board := setCell (setCell (List.replicate 9 (List.replicate 9 0)) 4 8 1) 4 0 2
    player0 := ⟨1, 4, 8, 10⟩
    player1 := ⟨2, 4, 0, 10⟩
    walls := []
    currentPlayer := 0
    wallPreview := none
    winner := none
    selectedPlayer := none
    isWallMode := false }

/-- `isWithinBounds` of the source, on the signed coordinates produced by
adding a direction offset. -/
def isWithinBounds (x y : Int) : Bool :=
  decide (0 ≤ x ∧ x < 9 ∧ 0 ≤ y ∧ y < 9)

/-- The four direction offsets of `getAdjacentSquares`, in source order. -/
def directions : List (Int × Int) := [(0, -1), (0, 1), (-1, 0), (1, 0)]

/-- `getAdjacentSquares` of the source: the in-bounds orthogonal
neighbours of `(x, y)`, in source order. -/
def getAdjacentSquares (x y : Nat) : List (Nat × Nat) :=
  directions.filterMap fun d =>
    let nx : Int := (x : Int) + d.1
    let ny : Int := (y : Int) + d.2
    if isWithinBounds nx ny then some (nx.toNat, ny.toNat) else none

/-- The test of one wall in `isWallBlocking`.  For a horizontal wall the
source requires `minY = wall.y - 1 ∧ maxY = wall.y ∧ minX ≥ wall.x - 1 ∧
maxX ≤ wall.x` over JavaScript numbers; on natural-number inputs that is
`minY + 1 = wall.y ∧ maxY = wall.y ∧ minX + 1 ≥ wall.x ∧ maxX ≤ wall.x`
(no truncation: both forms agree over the integers).  Symmetric for a
vertical wall. -/
def wallBlocksStep (w : Wall) (minX maxX minY maxY : Nat) : Prop :=
  (w.orient = .h ∧ minY + 1 = w.y ∧ maxY = w.y ∧ w.x ≤ minX + 1 ∧ maxX ≤ w.x) ∨
  (w.orient = .v ∧ minX + 1 = w.x ∧ maxX = w.x ∧ w.y ≤ minY + 1 ∧ maxY ≤ w.y)

instance (w : Wall) (minX maxX minY maxY : Nat) :
    Decidable (wallBlocksStep w minX maxX minY maxY) := by
  unfold wallBlocksStep; infer_instance

/-- `isWallBlocking` of the source (it only reads `state.walls`, so it is
stated on the wall list). -/
def isWallBlocking (walls : List Wall) (fromX fromY toX toY : Nat) : Bool :=
  let minX := min fromX toX
  let maxX := max fromX toX
  let minY := min fromY toY
  let maxY := max fromY toY
  walls.any fun w => decide (wallBlocksStep w minX maxX minY maxY)

/-- `getLegalMoves` of the source. -/
def getLegalMoves (s : GameState) (playerIdx : Nat) : List Move :=
  let player := getPlayer s playerIdx
  let opponent := getPlayer s (1 - playerIdx)
  (getAdjacentSquares player.x player.y).flatMap fun c =>
    if c.1 = opponent.x ∧ c.2 = opponent.y then
      ((getAdjacentSquares c.1 c.2).filter fun sc =>
          getCell s.board sc.1 sc.2 == 0).filterMap fun sc =>
        if isWallBlocking s.walls c.1 c.2 sc.1 sc.2 then none
        else some ⟨sc.1, sc.2, .jump⟩
    else
      if getCell s.board c.1 c.2 = 0 ∧
          isWallBlocking s.walls player.x player.y c.1 c.2 = false then
        [⟨c.1, c.2, .normal⟩]
      else []

/-- The breadth-first search loop of `hasPathToGoal`: pop the front of the
queue, skip it if already visited, succeed if its row is the goal row,
otherwise mark it visited and enqueue its unvisited, unblocked neighbours.
`fuel` only bounds the recursion; `bfsFuel` below always suffices. -/
def bfs (walls : List Wall) (goalY : Nat) :
    Nat → List (Nat × Nat) → List (Nat × Nat) → Bool
  | 0, _, _ => false
  | fuel + 1, visited, queue =>
    match queue with
    | [] => false
    | c :: rest =>
      if c ∈ visited then bfs walls goalY fuel visited rest
      else if c.2 = goalY then true
      else
        let visited' := c :: visited
        let next := (getAdjacentSquares c.1 c.2).filter fun a =>
          a ∉ visited' ∧ isWallBlocking walls c.1 c.2 a.1 a.2 = false
        bfs walls goalY fuel visited' (rest ++ next)

/-- Enough iterations for the 9×9 board: at most 81 cells ever become
visited, each enqueues at most 4 neighbours, so the queue sees at most
`1 + 4·81` elements. -/
def bfsFuel : Nat := 400

/-- `hasPathToGoal` of the source. -/
def hasPathToGoal (s : GameState) (playerIdx : Nat) : Bool :=
  let player := getPlayer s playerIdx
  let goalY := if playerIdx = 0 then 0 else 8
  bfs s.walls goalY bfsFuel [] [(player.x, player.y)]

/-- The per-existing-wall rejection test in `isLegalWall`'s loop: exact
same intersection (any orientation), or same orientation on the same
track within 1 unit (`Math.abs` is taken over the integers). -/
def wallConflict (ew w : Wall) : Prop :=
  (ew.x = w.x ∧ ew.y = w.y) ∨
  (w.orient = .h ∧ ew.orient = .h ∧ ew.y = w.y ∧
    ((ew.x : Int) - (w.x : Int)).natAbs ≤ 1) ∨
  (w.orient = .v ∧ ew.orient = .v ∧ ew.x = w.x ∧
    ((ew.y : Int) - (w.y : Int)).natAbs ≤ 1)

instance (ew w : Wall) : Decidable (wallConflict ew w) := by
  unfold wallConflict; infer_instance

/-- `isLegalWall` of the source. -/
def isLegalWall (s : GameState) (w : Wall) : Bool :=
  if w.x < 1 ∨ w.x > 8 ∨ w.y < 1 ∨ w.y > 8 then false
  else if s.walls.any fun ew => decide (wallConflict ew w) then false
  else
    let temp := { s with walls := s.walls ++ [w] }
    hasPathToGoal temp 0 && hasPathToGoal temp 1

/-- `applyMove` of the source. -/
def applyMove (s : GameState) (playerIdx x y : Nat) : GameState :=
  let player := getPlayer s playerIdx
  let newBoard := setCell (setCell s.board player.x player.y 0) x y player.id
  let moved : Pawn := { player with x := x, y := y }
  let winner : Option Nat :=
    if playerIdx = 0 ∧ y = 0 then some 0
    else if playerIdx = 1 ∧ y = 8 then some 1
    else none
  { s with
    board := newBoard
    player0 := if playerIdx = 0 then moved else s.player0
    player1 := if playerIdx = 1 then moved else s.player1
    currentPlayer := if winner = none then 1 - playerIdx else s.currentPlayer
    winner := winner
    selectedPlayer := none }

/-- `applyWall` of the source. -/
def applyWall (s : GameState) (w : Wall) : GameState :=
  let player := getPlayer s s.currentPlayer
  let placed : Pawn := { player with walls := player.walls - 1 }
  { s with
    walls := s.walls ++ [w]
    player0 := if s.currentPlayer = 0 then placed else s.player0
    player1 := if s.currentPlayer = 1 then placed else s.player1
    currentPlayer := 1 - s.currentPlayer
    wallPreview := none }

/-- JavaScript truthiness of the `winner` field: `null` and `0` are falsy,
every other number is truthy. -/
def winnerTruthy : Option Nat → Bool
  | none => false
  | some n => decide (n ≠ 0)

/-- `handleSquareClick` of the source, as a state transformer (the source
mutates the shared record with `Object.assign`; the result here is the
record after the handler returns). -/
def handleSquareClick (s : GameState) (x y : Nat) : GameState :=
  if winnerTruthy s.winner || s.isWallMode || s.wallPreview.isSome then s
  else
    let cur := getPlayer s s.currentPlayer
    let opp := getPlayer s (1 - s.currentPlayer)
    if x = cur.x ∧ y = cur.y then
      { s with selectedPlayer := some s.currentPlayer }
    else if s.selectedPlayer = some s.currentPlayer then
      if (getLegalMoves s s.currentPlayer).any fun m => m.x == x && m.y == y then
        applyMove s s.currentPlayer x y
      else if x ≠ opp.x ∨ y ≠ opp.y then { s with selectedPlayer := none }
      else s
    else s

/-- A driver request: move the acting pawn, or place a wall. -/
inductive Action where
  | mv (m : Move)
  | wl (w : Wall)
deriving DecidableEq, Repr

/-- Perform one action for the acting player (`state.currentPlayer`). -/
def applyAction (s : GameState) : Action → GameState
  | .mv m => applyMove s s.currentPlayer m.x m.y
  | .wl w => applyWall s w

/-- Play a sequence of actions from a state. -/
def playActions (s : GameState) (acts : List Action) : GameState :=
  acts.foldl applyAction s

/-- Each action in the sequence is approved by the corresponding legality
query in the state where it is performed: a move must be in
`getLegalMoves` for the acting player, a wall must pass `isLegalWall`. -/
def actionsLegal : GameState → List Action → Bool
  | _, [] => true
  | s, .mv m :: rest =>
    decide (m ∈ getLegalMoves s s.currentPlayer) &&
      actionsLegal (applyAction s (.mv m)) rest
  | s, .wl w :: rest =>
    isLegalWall s w && actionsLegal (applyAction s (.wl w)) rest

/-- One transition whose input was first approved by the legality
queries: a move drawn from `getLegalMoves` for the acting player, or a
wall approved by `isLegalWall`. -/
inductive LegalStep : GameState → GameState → Prop where
  | move (s : GameState) (m : Move) (hm : m ∈ getLegalMoves s s.currentPlayer) :
      LegalStep s (applyMove s s.currentPlayer m.x m.y)
  | wall (s : GameState) (w : Wall) (hw : isLegalWall s w = true) :
      LegalStep s (applyWall s w)

/-- Reachability by legality-approved transitions. -/
def Reachable : GameState → GameState → Prop :=
  Relation.ReflTransGen LegalStep

/-- One transition as the driver performs it: in addition to the legality
queries, a wall placement requires the acting player to have a positive
wall count (the `currentPlayer.walls <= 0` guard of `handleWallClick` /
`handleWallRightClick`). -/
inductive DriverStep : GameState → GameState → Prop where
  | move (s : GameState) (m : Move) (hm : m ∈ getLegalMoves s s.currentPlayer) :
      DriverStep s (applyMove s s.currentPlayer m.x m.y)
  | wall (s : GameState) (w : Wall) (hw : isLegalWall s w = true)
      (hc : 0 < (getPlayer s s.currentPlayer).walls) :
      DriverStep s (applyWall s w)

/-- Reachability by driver transitions. -/
def DriverReachable : GameState → GameState → Prop :=
  Relation.ReflTransGen DriverStep

/-- The board is a 9×9 grid: 9 columns of 9 cells each. -/
def BoardShape (b : Board) : Prop :=
  b.length = 9 ∧ ∀ i < 9, (b.getD i []).length = 9

instance (b : Board) : Decidable (BoardShape b) := by
  unfold BoardShape; infer_instance

/-- Board occupancy equals exactly the two pawns' positions: each pawn's
cell holds that pawn's identifier and every other cell is empty. -/
def OccupancyMatches (s : GameState) : Prop :=
  getCell s.board s.player0.x s.player0.y = s.player0.id ∧
  getCell s.board s.player1.x s.player1.y = s.player1.id ∧
  ∀ x < 9, ∀ y < 9, ¬(x = s.player0.x ∧ y = s.player0.y) →
    ¬(x = s.player1.x ∧ y = s.player1.y) → getCell s.board x y = 0

instance (s : GameState) : Decidable (OccupancyMatches s) := by
  unfold OccupancyMatches; infer_instance

/-- A legally played game: player 0 marches straight down column 4 while
player 1 shuffles between `(4,0)` and `(3,0)`; player 0's final step onto
`(4,0)` reaches row 0 and wins. -/
def c3Moves : List Action :=
  [.mv ⟨4, 7, .normal⟩, .mv ⟨3, 0, .normal⟩, .mv ⟨4, 6, .normal⟩, .mv ⟨4, 0, .normal⟩,
   .mv ⟨4, 5, .normal⟩, .mv ⟨3, 0, .normal⟩, .mv ⟨4, 4, .normal⟩, .mv ⟨4, 0, .normal⟩,
   .mv ⟨4, 3, .normal⟩, .mv ⟨3, 0, .normal⟩, .mv ⟨4, 2, .normal⟩, .mv ⟨4, 0, .normal⟩,
   .mv ⟨4, 1, .normal⟩, .mv ⟨3, 0, .normal⟩, .mv ⟨4, 0, .normal⟩]

/-- The state after that game: player 0 has just won (`winner = some 0`). -/
def sWon : GameState := playActions createInitialState c3Moves

/-- A state holding one horizontal wall at intersection `(3,3)`. -/
def c4State : GameState := { createInitialState with walls := [⟨3, 3, .h⟩] }

/-- 43 legality-approved transitions in which player 0 places 11 walls.
First player 0 walks to `(4,1)` and player 1 walks to `(0,7)` (each one
step from its goal row, keeping every subsequent path search short);
then player 0 places 11 horizontal walls on tracks `y ∈ {4,5,6}` with
spacing 2 while player 1 shuffles between `(0,7)` and `(1,7)`.  The
walls never separate either pawn from the adjacent goal row, so every
placement passes `isLegalWall` — yet `applyWall` decrements player 0's
count 11 times. -/
def c6Acts : List Action :=
  [.mv ⟨4, 7, .normal⟩, .mv ⟨3, 0, .normal⟩, .mv ⟨4, 6, .normal⟩, .mv ⟨2, 0, .normal⟩,
   .mv ⟨4, 5, .normal⟩, .mv ⟨1, 0, .normal⟩, .mv ⟨4, 4, .normal⟩, .mv ⟨0, 0, .normal⟩,
   .mv ⟨4, 3, .normal⟩, .mv ⟨0, 1, .normal⟩, .mv ⟨4, 2, .normal⟩, .mv ⟨0, 2, .normal⟩,
   .mv ⟨4, 1, .normal⟩, .mv ⟨0, 3, .normal⟩, .mv ⟨5, 1, .normal⟩, .mv ⟨0, 4, .normal⟩,
   .mv ⟨4, 1, .normal⟩, .mv ⟨0, 5, .normal⟩, .mv ⟨5, 1, .normal⟩, .mv ⟨0, 6, .normal⟩,
   .mv ⟨4, 1, .normal⟩, .mv ⟨0, 7, .normal⟩,
   .wl ⟨1, 4, .h⟩, .mv ⟨1, 7, .normal⟩, .wl ⟨3, 4, .h⟩, .mv ⟨0, 7, .normal⟩,
   .wl ⟨5, 4, .h⟩, .mv ⟨1, 7, .normal⟩, .wl ⟨7, 4, .h⟩, .mv ⟨0, 7, .normal⟩,
   .wl ⟨1, 5, .h⟩, .mv ⟨1, 7, .normal⟩, .wl ⟨3, 5, .h⟩, .mv ⟨0, 7, .normal⟩,
   .wl ⟨5, 5, .h⟩, .mv ⟨1, 7, .normal⟩, .wl ⟨7, 5, .h⟩, .mv ⟨0, 7, .normal⟩,
   .wl ⟨1, 6, .h⟩, .mv ⟨1, 7, .normal⟩, .wl ⟨3, 6, .h⟩, .mv ⟨0, 7, .normal⟩,
   .wl ⟨5, 6, .h⟩]

/-- A well-formed mid-game state: player 0 at `(4,4)`, player 1 adjacent
at `(4,3)`, no walls placed. -/
def c8State : GameState :=
  { createInitialState with
      board := setCell (setCell (List.replicate 9 (List.replicate 9 0)) 4 4 1) 4 3 2
      player0 := ⟨1, 4, 4, 10⟩
      player1 := ⟨2, 4, 3, 10⟩ }

/-- A legal action sequence yields a reachable state. -/
theorem reachable_playActions (s : GameState) (acts : List Action)
    (h : actionsLegal s acts = true) : Reachable s (playActions s acts) := by
  induction acts generalizing s with
  | nil => exact Relation.ReflTransGen.refl
  | cons a rest ih =>
    cases a with
    | mv m =>
      rw [actionsLegal, Bool.and_eq_true] at h
      exact Relation.ReflTransGen.head
        (LegalStep.move s m (of_decide_eq_true h.1)) (ih _ h.2)
    | wl w =>
      rw [actionsLegal, Bool.and_eq_true] at h
      exact Relation.ReflTransGen.head (LegalStep.wall s w h.1) (ih _ h.2)

/-- C1: `isLegalWall` returns true only if, with the candidate wall added
to the wall collection, the breadth-first search of `hasPathToGoal`
reaches the goal row from each player's position; if either search
fails, `isLegalWall` returns false. -/
theorem isLegalWall_requires_paths (s : GameState) (w : Wall)
    (h : isLegalWall s w = true) :
    hasPathToGoal { s with walls := s.walls ++ [w] } 0 = true ∧
    hasPathToGoal { s with walls := s.walls ++ [w] } 1 = true := by
  rw [isLegalWall] at h
  split at h
  · exact absurd h (by simp)
  · split at h
    · exact absurd h (by simp)
    · rw [Bool.and_eq_true] at h
      exact h

set_option maxHeartbeats 1000000 in
/-- Witness for C1: the first wall of a game, horizontal at `(4,4)`, is
legal, and both path searches indeed succeed with it in place. -/
theorem isLegalWall_requires_paths_witness :
    isLegalWall createInitialState ⟨4, 4, .h⟩ = true ∧
    hasPathToGoal { createInitialState with
      walls := createInitialState.walls ++ [⟨4, 4, .h⟩] } 0 = true ∧
    hasPathToGoal { createInitialState with
      walls := createInitialState.walls ++ [⟨4, 4, .h⟩] } 1 = true := by
  have hW : isLegalWall createInitialState ⟨4, 4, .h⟩ = true := by decide
  exact ⟨hW, isLegalWall_requires_paths createInitialState ⟨4, 4, .h⟩ hW⟩

/-- C2: `applyMove` declares winner 0 exactly for player 0 reaching row 0
and winner 1 exactly for player 1 reaching row 8; with no winner the turn
passes to the other player, with a winner `currentPlayer` is unchanged. -/
theorem applyMove_winner_turn (s : GameState) (p x y : Nat) (hp : p < 2) :
    ((applyMove s p x y).winner = some 0 ↔ p = 0 ∧ y = 0) ∧
    ((applyMove s p x y).winner = some 1 ↔ p = 1 ∧ y = 8) ∧
    (¬(p = 0 ∧ y = 0) → ¬(p = 1 ∧ y = 8) →
      (applyMove s p x y).winner = none ∧
      (applyMove s p x y).currentPlayer = 1 - p) ∧
    ((p = 0 ∧ y = 0) ∨ (p = 1 ∧ y = 8) →
      (applyMove s p x y).currentPlayer = s.currentPlayer) := by
  interval_cases p <;> by_cases h0 : y = 0 <;> by_cases h8 : y = 8 <;>
    simp_all [applyMove]

/-- Witness for C2: player 1 moving to `(3,8)` from the initial state wins
and keeps the turn. -/
theorem applyMove_winner_turn_witness :
    ((applyMove createInitialState 1 3 8).winner = some 0 ↔ 1 = 0 ∧ 8 = 0) ∧
    ((applyMove createInitialState 1 3 8).winner = some 1 ↔ 1 = 1 ∧ 8 = 8) ∧
    (¬(1 = 0 ∧ 8 = 0) → ¬(1 = 1 ∧ 8 = 8) →
      (applyMove createInitialState 1 3 8).winner = none ∧
      (applyMove createInitialState 1 3 8).currentPlayer = 1 - 1) ∧
    ((1 = 0 ∧ 8 = 0) ∨ (1 = 1 ∧ 8 = 8) →
      (applyMove createInitialState 1 3 8).currentPlayer =
        createInitialState.currentPlayer) :=
  applyMove_winner_turn createInitialState 1 3 8 (by decide)

/-- C4: an existing wall on the same intersection (any orientation), or of
the same orientation with the same cross-axis coordinate and along-axis
distance at most 1, makes `isLegalWall` reject the candidate. -/
theorem isLegalWall_rejects_conflicts (s : GameState) (w : Wall)
    (h : ∃ ew ∈ s.walls,
      (ew.x = w.x ∧ ew.y = w.y) ∨
      (ew.orient = w.orient ∧
        ((w.orient = .h ∧ ew.y = w.y ∧ ((ew.x : Int) - (w.x : Int)).natAbs ≤ 1) ∨
         (w.orient = .v ∧ ew.x = w.x ∧ ((ew.y : Int) - (w.y : Int)).natAbs ≤ 1)))) :
    isLegalWall s w = false := by
  obtain ⟨ew, hmem, hcond⟩ := h
  have hcw : wallConflict ew w := by
    rcases hcond with ⟨hx, hy⟩ | ⟨horient, ⟨hwo, hy, hd⟩ | ⟨hwo, hx, hd⟩⟩
    · exact Or.inl ⟨hx, hy⟩
    · exact Or.inr (Or.inl ⟨hwo, horient.trans hwo, hy, hd⟩)
    · exact Or.inr (Or.inr ⟨hwo, horient.trans hwo, hx, hd⟩)
  have hany : (s.walls.any fun ew => decide (wallConflict ew w)) = true :=
    List.any_eq_true.mpr ⟨ew, hmem, decide_eq_true hcw⟩
  rw [isLegalWall]
  by_cases hbound : w.x < 1 ∨ w.x > 8 ∨ w.y < 1 ∨ w.y > 8
  · rw [if_pos hbound]
  · rw [if_neg hbound, if_pos hany]

/-- Witness for C4: with a horizontal wall at `(3,3)` placed, a
horizontal candidate at `(4,3)` is rejected. -/
theorem isLegalWall_rejects_conflicts_witness :
    (∃ ew ∈ c4State.walls,
      (ew.x = (4 : Nat) ∧ ew.y = (3 : Nat)) ∨
      (ew.orient = Orient.h ∧
        ((Orient.h = Orient.h ∧ ew.y = (3 : Nat) ∧
            ((ew.x : Int) - ((4 : Nat) : Int)).natAbs ≤ 1) ∨
         (Orient.h = Orient.v ∧ ew.x = (4 : Nat) ∧
            ((ew.y : Int) - ((3 : Nat) : Int)).natAbs ≤ 1)))) ∧
    isLegalWall c4State ⟨4, 3, .h⟩ = false :=
  ⟨by decide, isLegalWall_rejects_conflicts c4State ⟨4, 3, .h⟩ (by decide)⟩

/-- C5: `applyWall` appends the wall, decrements exactly the acting
player's wall count by 1, leaves the opponent, the pawn positions, the
board and the winner unchanged, and unconditionally flips the turn. -/
theorem applyWall_effect (s : GameState) (w : Wall)
    (hcp : s.currentPlayer < 2) :
    (applyWall s w).walls = s.walls ++ [w] ∧
    (getPlayer (applyWall s w) s.currentPlayer).walls =
      (getPlayer s s.currentPlayer).walls - 1 ∧
    getPlayer (applyWall s w) (1 - s.currentPlayer) =
      getPlayer s (1 - s.currentPlayer) ∧
    (getPlayer (applyWall s w) s.currentPlayer).x =
      (getPlayer s s.currentPlayer).x ∧
    (getPlayer (applyWall s w) s.currentPlayer).y =
      (getPlayer s s.currentPlayer).y ∧
    (applyWall s w).board = s.board ∧
    (applyWall s w).winner = s.winner ∧
    (applyWall s w).currentPlayer = 1 - s.currentPlayer := by
  have hcp' : s.currentPlayer = 0 ∨ s.currentPlayer = 1 := by omega
  rcases hcp' with h | h <;> simp [applyWall, getPlayer, h]

/-- Witness for C5: placing a horizontal wall at `(1,1)` from the initial
state. -/
theorem applyWall_effect_witness :
    (applyWall createInitialState ⟨1, 1, .h⟩).walls =
      createInitialState.walls ++ [⟨1, 1, .h⟩] ∧
    (getPlayer (applyWall createInitialState ⟨1, 1, .h⟩)
        createInitialState.currentPlayer).walls =
      (getPlayer createInitialState createInitialState.currentPlayer).walls - 1 ∧
    getPlayer (applyWall createInitialState ⟨1, 1, .h⟩)
        (1 - createInitialState.currentPlayer) =
      getPlayer createInitialState (1 - createInitialState.currentPlayer) ∧
    (getPlayer (applyWall createInitialState ⟨1, 1, .h⟩)
        createInitialState.currentPlayer).x =
      (getPlayer createInitialState createInitialState.currentPlayer).x ∧
    (getPlayer (applyWall createInitialState ⟨1, 1, .h⟩)
        createInitialState.currentPlayer).y =
      (getPlayer createInitialState createInitialState.currentPlayer).y ∧
    (applyWall createInitialState ⟨1, 1, .h⟩).board = createInitialState.board ∧
    (applyWall createInitialState ⟨1, 1, .h⟩).winner = createInitialState.winner ∧
    (applyWall createInitialState ⟨1, 1, .h⟩).currentPlayer =
      1 - createInitialState.currentPlayer :=
  applyWall_effect createInitialState ⟨1, 1, .h⟩ (by decide)

theorem getD_set_ne {α : Type} (l : List α) (i j : Nat) (a d : α)
    (h : i ≠ j) : (l.set i a).getD j d = l.getD j d := by
  simp [List.getD_eq_getElem?_getD, List.getElem?_set_ne h]

theorem getD_set_self {α : Type} (l : List α) (i : Nat) (a d : α)
    (h : i < l.length) : (l.set i a).getD i d = a := by
  simp [List.getD_eq_getElem?_getD, List.getElem?_set_eq_of_lt a h]

theorem getCell_setCell_ne (b : Board) (x y v x' y' : Nat)
    (h : x' ≠ x ∨ y' ≠ y) :
    getCell (setCell b x y v) x' y' = getCell b x' y' := by
  unfold getCell setCell
  by_cases hx : x' = x
  · subst hx
    have hy : y' ≠ y := by tauto
    by_cases hlen : x' < b.length
    · rw [getD_set_self _ _ _ _ hlen, getD_set_ne _ _ _ _ _ (Ne.symm hy)]
    · rw [List.set_eq_of_length_le (Nat.le_of_not_lt hlen)]
  · rw [getD_set_ne _ _ _ _ _ (fun hh => hx hh.symm)]

theorem getCell_setCell_self (b : Board) (x y v : Nat)
    (hx : x < b.length) (hy : y < (b.getD x []).length) :
    getCell (setCell b x y v) x y = v := by
  unfold getCell setCell
  rw [getD_set_self _ _ _ _ hx, getD_set_self _ _ _ _ hy]

theorem boardShape_setCell (b : Board) (x y v : Nat) (hb : BoardShape b) :
    BoardShape (setCell b x y v) := by
  obtain ⟨hlen, hrow⟩ := hb
  refine ⟨by simp [setCell, hlen], ?_⟩
  intro i hi
  by_cases hx : i = x
  · subst hx
    have hil : i < b.length := by omega
    rw [setCell, getD_set_self _ _ _ _ hil, List.length_set]
    exact hrow i hi
  · rw [setCell, getD_set_ne _ _ _ _ _ (fun hh => hx hh.symm)]
    exact hrow i hi

theorem getCell_oob (b : Board) (x y : Nat) (hb : BoardShape b)
    (h : 9 ≤ x ∨ 9 ≤ y) : getCell b x y = 0 := by
  obtain ⟨hlen, hrow⟩ := hb
  unfold getCell
  by_cases hx : x < 9
  · rcases h with hxo | hyo
    · omega
    · have hr : (b.getD x []).length = 9 := hrow x hx
      have h2 : (b.getD x ([] : List Nat))[y]? = none :=
        List.getElem?_eq_none (by omega)
      rw [List.getD_eq_getElem?_getD, h2]
      rfl
  · have hge : b.length ≤ x := by omega
    have : b.getD x ([] : List Nat) = [] := by
      simp [List.getD_eq_getElem?_getD, List.getElem?_eq_none hge]
    rw [this]
    rfl

theorem getCell_ne_zero_bounds (b : Board) (x y : Nat) (hb : BoardShape b)
    (h : getCell b x y ≠ 0) : x < 9 ∧ y < 9 := by
  by_contra hc
  push_neg at hc
  rcases Nat.lt_or_ge x 9 with hx | hx
  · exact h (getCell_oob b x y hb (Or.inr (hc hx)))
  · exact h (getCell_oob b x y hb (Or.inl hx))

set_option linter.unreachableTactic false in
set_option linter.unusedTactic false in
theorem mem_getAdjacentSquares (x y a b : Nat) :
    (a, b) ∈ getAdjacentSquares x y ↔
      a < 9 ∧ b < 9 ∧
        ((a = x ∧ b + 1 = y) ∨ (a = x ∧ b = y + 1) ∨
         (a + 1 = x ∧ b = y) ∨ (a = x + 1 ∧ b = y)) := by
  simp only [getAdjacentSquares, directions, List.mem_filterMap, List.mem_cons,
    List.not_mem_nil, or_false, isWithinBounds]
  constructor
  · rintro ⟨d, hd, hsome⟩
    rcases hd with rfl | rfl | rfl | rfl
    all_goals
      split_ifs at hsome with hcond
      all_goals
        first
        | (simp only [Option.some.injEq, Prod.mk.injEq] at hsome
           rw [decide_eq_true_eq] at hcond
           omega)
        | exact absurd hsome (by simp)
  · rintro ⟨ha, hb, hcase⟩
    rcases hcase with ⟨rfl, hby⟩ | ⟨rfl, rfl⟩ | ⟨hax, rfl⟩ | ⟨rfl, rfl⟩
    · refine ⟨(0, -1), Or.inl rfl, ?_⟩
      rw [if_pos (decide_eq_true (by constructor <;> omega))]
      simp only [Option.some.injEq, Prod.mk.injEq]
      omega
    · refine ⟨(0, 1), Or.inr (Or.inl rfl), ?_⟩
      rw [if_pos (decide_eq_true (by constructor <;> omega))]
      simp only [Option.some.injEq, Prod.mk.injEq]
      omega
    · refine ⟨(-1, 0), Or.inr (Or.inr (Or.inl rfl)), ?_⟩
      rw [if_pos (decide_eq_true (by constructor <;> omega))]
      simp only [Option.some.injEq, Prod.mk.injEq]
      omega
    · refine ⟨(1, 0), Or.inr (Or.inr (Or.inr rfl)), ?_⟩
      rw [if_pos (decide_eq_true (by constructor <;> omega))]
      simp only [Option.some.injEq, Prod.mk.injEq]
      omega

/-- A cell is never adjacent to itself. -/
theorem not_mem_getAdjacentSquares_self (x y : Nat) :
    (x, y) ∉ getAdjacentSquares x y := by
  rw [mem_getAdjacentSquares]
  rintro ⟨-, -, h⟩
  rcases h with ⟨-, h⟩ | ⟨-, h⟩ | ⟨h, -⟩ | ⟨h, -⟩ <;> omega

/-- C9: `createInitialState` returns the fixed initial state: pawn 1 at
`(4,8)` and pawn 2 at `(4,0)` each with 10 walls, no walls placed, player
0 to move, no winner, and board occupancy exactly the two pawns. -/
theorem createInitialState_spec :
    createInitialState.player0 = ⟨1, 4, 8, 10⟩ ∧
    createInitialState.player1 = ⟨2, 4, 0, 10⟩ ∧
    createInitialState.walls = [] ∧
    createInitialState.currentPlayer = 0 ∧
    createInitialState.winner = none ∧
    getCell createInitialState.board 4 8 = 1 ∧
    getCell createInitialState.board 4 0 = 2 ∧
    ∀ x < 9, ∀ y < 9, ¬(x = 4 ∧ y = 8) → ¬(x = 4 ∧ y = 0) →
      getCell createInitialState.board x y = 0 := by
  decide

/-- Membership of a jump move in `getLegalMoves`: the opponent stands
orthogonally adjacent to the acting pawn, and the destination is an empty
orthogonal neighbour of the opponent with no wall between the opponent's
cell and it.  No condition mentions a wall between the two pawns. -/
theorem jump_mem_getLegalMoves_iff (s : GameState) (p mx my : Nat) :
    (⟨mx, my, .jump⟩ : Move) ∈ getLegalMoves s p ↔
      ((getPlayer s (1 - p)).x, (getPlayer s (1 - p)).y) ∈
        getAdjacentSquares (getPlayer s p).x (getPlayer s p).y ∧
      (mx, my) ∈ getAdjacentSquares (getPlayer s (1 - p)).x (getPlayer s (1 - p)).y ∧
      getCell s.board mx my = 0 ∧
      isWallBlocking s.walls (getPlayer s (1 - p)).x (getPlayer s (1 - p)).y mx my
        = false := by
  unfold getLegalMoves
  rw [List.mem_flatMap]
  constructor
  · rintro ⟨⟨cx, cy⟩, hc, hm⟩
    split_ifs at hm with hco hrest
    · obtain ⟨hc1, hc2⟩ := hco
      subst hc1; subst hc2
      rw [List.mem_filterMap] at hm
      obtain ⟨⟨sx, sy⟩, hsc, heq⟩ := hm
      rw [List.mem_filter] at hsc
      obtain ⟨hscadj, hscempty⟩ := hsc
      split_ifs at heq with hblock
      simp only [Option.some.injEq, Move.mk.injEq] at heq
      obtain ⟨h1, h2, -⟩ := heq
      subst h1; subst h2
      rw [Bool.not_eq_true] at hblock
      simp only [beq_iff_eq] at hscempty
      exact ⟨hc, hscadj, hscempty, hblock⟩
    · simp at hm
    · simp at hm
  · rintro ⟨hadj, hscadj, hempty, hblock⟩
    refine ⟨((getPlayer s (1 - p)).x, (getPlayer s (1 - p)).y), hadj, ?_⟩
    rw [if_pos ⟨rfl, rfl⟩, List.mem_filterMap]
    refine ⟨(mx, my), List.mem_filter.mpr ⟨hscadj, by simp [hempty]⟩, ?_⟩
    rw [if_neg (by simp [hblock])]

/-- Membership of a normal move in `getLegalMoves`: an empty, unblocked
orthogonal neighbour of the acting pawn other than the opponent's cell. -/
theorem normal_mem_getLegalMoves_iff (s : GameState) (p mx my : Nat) :
    (⟨mx, my, .normal⟩ : Move) ∈ getLegalMoves s p ↔
      (mx, my) ∈ getAdjacentSquares (getPlayer s p).x (getPlayer s p).y ∧
      ¬(mx = (getPlayer s (1 - p)).x ∧ my = (getPlayer s (1 - p)).y) ∧
      getCell s.board mx my = 0 ∧
      isWallBlocking s.walls (getPlayer s p).x (getPlayer s p).y mx my = false := by
  unfold getLegalMoves
  rw [List.mem_flatMap]
  constructor
  · rintro ⟨⟨cx, cy⟩, hc, hm⟩
    split_ifs at hm with hco hrest
    · rw [List.mem_filterMap] at hm
      obtain ⟨⟨sx, sy⟩, hsc, heq⟩ := hm
      split_ifs at heq with hblock
      simp at heq
    · simp only [List.mem_singleton, Move.mk.injEq] at hm
      obtain ⟨h1, h2, -⟩ := hm
      subst h1; subst h2
      exact ⟨hc, hco, hrest.1, hrest.2⟩
    · simp at hm
  · rintro ⟨hadj, hne, hempty, hblock⟩
    refine ⟨(mx, my), hadj, ?_⟩
    rw [if_neg hne, if_pos ⟨hempty, hblock⟩]
    simp

/-- C10: the jump computation never tests for a wall between the acting
pawn's cell and the opponent's cell — a jump move is legal exactly when
the opponent is adjacent and the landing cell is an empty orthogonal
neighbour of the opponent (any of them, not only the straight-line square
beyond) whose step from the opponent's cell is unblocked.  A wall directly
separating the two pawns appears nowhere in the condition. -/
theorem jump_ignores_wall_between_pawns (s : GameState) (p mx my : Nat) :
    (⟨mx, my, .jump⟩ : Move) ∈ getLegalMoves s p ↔
      ((getPlayer s (1 - p)).x, (getPlayer s (1 - p)).y) ∈
        getAdjacentSquares (getPlayer s p).x (getPlayer s p).y ∧
      (mx, my) ∈ getAdjacentSquares (getPlayer s (1 - p)).x (getPlayer s (1 - p)).y ∧
      getCell s.board mx my = 0 ∧
      isWallBlocking s.walls (getPlayer s (1 - p)).x (getPlayer s (1 - p)).y mx my
        = false :=
  jump_mem_getLegalMoves_iff s p mx my

set_option linter.unusedVariables false in
/-- C8: with the two pawns orthogonally adjacent, board occupancy matching
the pawns and no placed wall blocking the steps involved, the acting
player's legal moves include, with kind jump, the square two steps away in
the direction of the opponent (on the board and empty), and exclude the
opponent-occupied square itself with either kind. -/
theorem jump_over_adjacent_opponent (s : GameState) (p : Nat) (hp : p < 2)
    (dx dy : Int) (hd : (dx, dy) ∈ directions)
    (ho : OccupancyMatches s)
    (hBx : ((getPlayer s (1 - p)).x : Int) = (getPlayer s p).x + dx)
    (hBy : ((getPlayer s (1 - p)).y : Int) = (getPlayer s p).y + dy)
    (hBb : (getPlayer s (1 - p)).x < 9 ∧ (getPlayer s (1 - p)).y < 9)
    (tx ty : Nat)
    (hTx : (tx : Int) = (getPlayer s (1 - p)).x + dx)
    (hTy : (ty : Int) = (getPlayer s (1 - p)).y + dy)
    (hTb : tx < 9 ∧ ty < 9)
    (hTempty : getCell s.board tx ty = 0)
    (hw1 : isWallBlocking s.walls (getPlayer s p).x (getPlayer s p).y
      (getPlayer s (1 - p)).x (getPlayer s (1 - p)).y = false)
    (hw2 : isWallBlocking s.walls (getPlayer s (1 - p)).x (getPlayer s (1 - p)).y
      tx ty = false) :
    (⟨tx, ty, .jump⟩ : Move) ∈ getLegalMoves s p ∧
    (⟨(getPlayer s (1 - p)).x, (getPlayer s (1 - p)).y, .normal⟩ : Move) ∉
      getLegalMoves s p ∧
    (⟨(getPlayer s (1 - p)).x, (getPlayer s (1 - p)).y, .jump⟩ : Move) ∉
      getLegalMoves s p := by
  have hBadj : ((getPlayer s (1 - p)).x, (getPlayer s (1 - p)).y) ∈
      getAdjacentSquares (getPlayer s p).x (getPlayer s p).y := by
    rw [mem_getAdjacentSquares]
    refine ⟨hBb.1, hBb.2, ?_⟩
    simp only [directions, List.mem_cons, List.not_mem_nil, or_false,
      Prod.mk.injEq] at hd
    rcases hd with ⟨h1, h2⟩ | ⟨h1, h2⟩ | ⟨h1, h2⟩ | ⟨h1, h2⟩ <;> subst h1 <;> subst h2 <;>
      omega
  have hTadj : (tx, ty) ∈
      getAdjacentSquares (getPlayer s (1 - p)).x (getPlayer s (1 - p)).y := by
    rw [mem_getAdjacentSquares]
    refine ⟨hTb.1, hTb.2, ?_⟩
    simp only [directions, List.mem_cons, List.not_mem_nil, or_false,
      Prod.mk.injEq] at hd
    rcases hd with ⟨h1, h2⟩ | ⟨h1, h2⟩ | ⟨h1, h2⟩ | ⟨h1, h2⟩ <;> subst h1 <;> subst h2 <;>
      omega
  refine ⟨?_, ?_, ?_⟩
  · rw [jump_mem_getLegalMoves_iff]
    exact ⟨hBadj, hTadj, hTempty, hw2⟩
  · rw [normal_mem_getLegalMoves_iff]
    rintro ⟨-, hne, -, -⟩
    exact hne ⟨rfl, rfl⟩
  · rw [jump_mem_getLegalMoves_iff]
    rintro ⟨-, hself, -, -⟩
    exact not_mem_getAdjacentSquares_self _ _ hself

/-- Witness for C8: pawns at `(4,4)` and `(4,3)` with no walls; the jump
to `(4,2)` is offered and `(4,3)` itself is not. -/
theorem jump_over_adjacent_opponent_witness :
    (⟨4, 2, .jump⟩ : Move) ∈ getLegalMoves c8State 0 ∧
    (⟨4, 3, .normal⟩ : Move) ∉ getLegalMoves c8State 0 ∧
    (⟨4, 3, .jump⟩ : Move) ∉ getLegalMoves c8State 0 :=
  jump_over_adjacent_opponent c8State 0 (by decide) 0 (-1) (by decide)
    (by decide) (by decide) (by decide) (by decide) 4 2 (by decide) (by decide)
    (by decide) (by decide) (by decide) (by decide)

/-- Any move offered by `getLegalMoves` targets an empty, on-board cell. -/
theorem mem_getLegalMoves_target (s : GameState) (p : Nat) (m : Move)
    (hm : m ∈ getLegalMoves s p) :
    getCell s.board m.x m.y = 0 ∧ m.x < 9 ∧ m.y < 9 := by
  obtain ⟨mx, my, t⟩ := m
  cases t with
  | normal =>
    rw [normal_mem_getLegalMoves_iff] at hm
    obtain ⟨hadj, -, hempty, -⟩ := hm
    have hbd := (mem_getAdjacentSquares _ _ _ _).mp hadj
    exact ⟨hempty, hbd.1, hbd.2.1⟩
  | jump =>
    rw [jump_mem_getLegalMoves_iff] at hm
    obtain ⟨-, hadj, hempty, -⟩ := hm
    have hbd := (mem_getAdjacentSquares _ _ _ _).mp hadj
    exact ⟨hempty, hbd.1, hbd.2.1⟩

/-- Moving the pawn `A` of a matching board to an empty on-board cell
keeps occupancy exactly the two pawns: destination holds `A.id`, `B` is
untouched, all other cells (including the vacated one) are empty. -/
theorem occupancy_move_core (b : Board) (A B : Pawn) (mx my : Nat)
    (hb : BoardShape b)
    (hA : getCell b A.x A.y = A.id)
    (hB : getCell b B.x B.y = B.id)
    (hrest : ∀ x < 9, ∀ y < 9, ¬(x = A.x ∧ y = A.y) → ¬(x = B.x ∧ y = B.y) →
      getCell b x y = 0)
    (hA0 : A.id ≠ 0) (hB0 : B.id ≠ 0) (hAB : A.id ≠ B.id)
    (hmx : mx < 9) (hmy : my < 9)
    (hempty : getCell b mx my = 0) :
    getCell (setCell (setCell b A.x A.y 0) mx my A.id) mx my = A.id ∧
    getCell (setCell (setCell b A.x A.y 0) mx my A.id) B.x B.y = B.id ∧
    (∀ x < 9, ∀ y < 9, ¬(x = mx ∧ y = my) → ¬(x = B.x ∧ y = B.y) →
      getCell (setCell (setCell b A.x A.y 0) mx my A.id) x y = 0) ∧
    getCell (setCell (setCell b A.x A.y 0) mx my A.id) A.x A.y = 0 := by
  have hAbound : A.x < 9 ∧ A.y < 9 :=
    getCell_ne_zero_bounds b A.x A.y hb (by rw [hA]; exact hA0)
  have hBbound : B.x < 9 ∧ B.y < 9 :=
    getCell_ne_zero_bounds b B.x B.y hb (by rw [hB]; exact hB0)
  have hMA : ¬(mx = A.x ∧ my = A.y) := by
    rintro ⟨rfl, rfl⟩
    rw [hA] at hempty
    exact hA0 hempty
  have hMB : ¬(mx = B.x ∧ my = B.y) := by
    rintro ⟨rfl, rfl⟩
    rw [hB] at hempty
    exact hB0 hempty
  have hABpos : ¬(A.x = B.x ∧ A.y = B.y) := by
    rintro ⟨h1, h2⟩
    rw [h1, h2, hB] at hA
    exact hAB hA.symm
  have hb1 : BoardShape (setCell b A.x A.y 0) := boardShape_setCell b _ _ _ hb
  have e1 : getCell (setCell (setCell b A.x A.y 0) mx my A.id) mx my = A.id :=
    getCell_setCell_self _ mx my A.id (by rw [hb1.1]; exact hmx)
      (by rw [hb1.2 mx hmx]; exact hmy)
  have e2 : getCell (setCell (setCell b A.x A.y 0) mx my A.id) B.x B.y = B.id := by
    rw [getCell_setCell_ne _ _ _ _ _ _ (by omega : B.x ≠ mx ∨ B.y ≠ my),
      getCell_setCell_ne _ _ _ _ _ _ (by omega : B.x ≠ A.x ∨ B.y ≠ A.y)]
    exact hB
  have e4 : getCell (setCell (setCell b A.x A.y 0) mx my A.id) A.x A.y = 0 := by
    rw [getCell_setCell_ne _ _ _ _ _ _ (by omega : A.x ≠ mx ∨ A.y ≠ my)]
    exact getCell_setCell_self b A.x A.y 0 (by rw [hb.1]; exact hAbound.1)
      (by rw [hb.2 A.x hAbound.1]; exact hAbound.2)
  refine ⟨e1, e2, ?_, e4⟩
  intro x hx y hy hnm hnB
  rw [getCell_setCell_ne _ _ _ _ _ _ (by omega : x ≠ mx ∨ y ≠ my)]
  by_cases hxA : x = A.x ∧ y = A.y
  · obtain ⟨h1, h2⟩ := hxA
    rw [h1, h2]
    exact getCell_setCell_self b A.x A.y 0 (by rw [hb.1]; exact hAbound.1)
      (by rw [hb.2 A.x hAbound.1]; exact hAbound.2)
  · rw [getCell_setCell_ne _ _ _ _ _ _ (by omega : x ≠ A.x ∨ y ≠ A.y)]
    exact hrest x hx y hy hxA hnB

end Quoridor

namespace Quoridor

set_option linter.unusedVariables false in
/-- C7 (amended): for a 9×9 board whose occupancy equals exactly the two
pawns (with distinct nonzero identifiers), any transition whose input was
approved by the corresponding legality query — a move drawn from
`getLegalMoves`, or any wall placement — again yields occupancy equal to
exactly the two pawns; in particular the vacated cell is empty and the
destination holds the mover's identifier. -/
theorem occupancy_preserved (s : GameState) (p : Nat) (hp : p < 2)
    (hb : BoardShape s.board) (ho : OccupancyMatches s)
    (h0 : s.player0.id ≠ 0) (h1 : s.player1.id ≠ 0)
    (h01 : s.player0.id ≠ s.player1.id) :
    (∀ m ∈ getLegalMoves s p,
      OccupancyMatches (applyMove s p m.x m.y) ∧
      getCell (applyMove s p m.x m.y).board (getPlayer s p).x (getPlayer s p).y = 0 ∧
      getCell (applyMove s p m.x m.y).board m.x m.y = (getPlayer s p).id) ∧
    (∀ w : Wall, OccupancyMatches (applyWall s w)) := by
  obtain ⟨hoA, hoB, hoR⟩ := ho
  constructor
  · intro m hm
    obtain ⟨hempty, hmx, hmy⟩ := mem_getLegalMoves_target s p m hm
    have hp' : p = 0 ∨ p = 1 := by omega
    rcases hp' with rfl | rfl
    · obtain ⟨c1, c2, c3, c4⟩ := occupancy_move_core s.board s.player0 s.player1
        m.x m.y hb hoA hoB hoR h0 h1 h01 hmx hmy hempty
      refine ⟨⟨?_, ?_, ?_⟩, ?_, ?_⟩
      · simp only [applyMove, getPlayer]
        norm_num
        exact c1
      · simp only [applyMove, getPlayer]
        norm_num
        exact c2
      · simp only [applyMove, getPlayer]
        norm_num
        intro x hx y hy hnm hnB
        exact c3 x hx y hy (fun hh => hnm hh.1 hh.2) (fun hh => hnB hh.1 hh.2)
      · simp only [applyMove, getPlayer]
        norm_num
        exact c4
      · simp only [applyMove, getPlayer]
        norm_num
        exact c1
    · obtain ⟨c1, c2, c3, c4⟩ := occupancy_move_core s.board s.player1 s.player0
        m.x m.y hb hoB hoA (fun x hx y hy hnA hnB => hoR x hx y hy hnB hnA)
        h1 h0 (fun h => h01 h.symm) hmx hmy hempty
      refine ⟨⟨?_, ?_, ?_⟩, ?_, ?_⟩
      · simp only [applyMove, getPlayer]
        norm_num
        exact c2
      · simp only [applyMove, getPlayer]
        norm_num
        exact c1
      · simp only [applyMove, getPlayer]
        norm_num
        intro x hx y hy hnB hnm
        exact c3 x hx y hy (fun hh => hnm hh.1 hh.2) (fun hh => hnB hh.1 hh.2)
      · simp only [applyMove, getPlayer]
        norm_num
        exact c4
      · simp only [applyMove, getPlayer]
        norm_num
        exact c1
  · intro w
    by_cases hc0 : s.currentPlayer = 0
    · simp only [OccupancyMatches, applyWall, getPlayer, hc0]
      norm_num
      exact ⟨hoA, hoB, fun x hx y hy hnA hnB =>
        hoR x hx y hy (fun hh => hnA hh.1 hh.2) (fun hh => hnB hh.1 hh.2)⟩
    · by_cases hc1 : s.currentPlayer = 1
      · simp only [OccupancyMatches, applyWall, getPlayer, hc0, hc1]
        norm_num
        exact ⟨hoA, hoB, fun x hx y hy hnA hnB =>
          hoR x hx y hy (fun hh => hnA hh.1 hh.2) (fun hh => hnB hh.1 hh.2)⟩
      · simp only [OccupancyMatches, applyWall, getPlayer, if_neg hc0, if_neg hc1]
        exact ⟨hoA, hoB, hoR⟩

/-- `applyMove` changes neither player's remaining wall count. -/
theorem applyMove_preserves_walls (s : GameState) (p x y : Nat) :
    (applyMove s p x y).player0.walls = s.player0.walls ∧
    (applyMove s p x y).player1.walls = s.player1.walls := by
  by_cases hp0 : p = 0
  · simp [applyMove, getPlayer, hp0]
  · by_cases hp1 : p = 1
    · simp [applyMove, getPlayer, hp0, hp1]
    · simp [applyMove, getPlayer, hp0, hp1]

/-- One driver step keeps both wall counts within `[0, 10]`. -/
theorem driverStep_walls_bounds (a b : GameState) (hs : DriverStep a b)
    (ih : 0 ≤ a.player0.walls ∧ a.player0.walls ≤ 10 ∧
      0 ≤ a.player1.walls ∧ a.player1.walls ≤ 10) :
    0 ≤ b.player0.walls ∧ b.player0.walls ≤ 10 ∧
    0 ≤ b.player1.walls ∧ b.player1.walls ≤ 10 := by
  cases hs with
  | move m hm =>
    obtain ⟨e0, e1⟩ := applyMove_preserves_walls a a.currentPlayer m.x m.y
    rw [e0, e1]
    exact ih
  | wall w hw hc =>
    by_cases h0 : a.currentPlayer = 0
    · have e : (applyWall a w).player0.walls = a.player0.walls - 1 ∧
          (applyWall a w).player1.walls = a.player1.walls := by
        simp [applyWall, getPlayer, h0]
      rw [e.1, e.2]
      have hcv : 0 < a.player0.walls := by simpa [getPlayer, h0] using hc
      exact ⟨by omega, by omega, ih.2.2.1, ih.2.2.2⟩
    · by_cases h1 : a.currentPlayer = 1
      · have e : (applyWall a w).player0.walls = a.player0.walls ∧
            (applyWall a w).player1.walls = a.player1.walls - 1 := by
          simp [applyWall, getPlayer, h0, h1]
        rw [e.1, e.2]
        have hcv : 0 < a.player1.walls := by simpa [getPlayer, h1] using hc
        exact ⟨ih.1, ih.2.1, by omega, by omega⟩
      · have e : (applyWall a w).player0.walls = a.player0.walls ∧
            (applyWall a w).player1.walls = a.player1.walls := by
          simp [applyWall, getPlayer, h0, h1]
        rw [e.1, e.2]
        exact ih

/-- C6 (amended): in every state reachable from the initial state by
driver transitions — moves drawn from `getLegalMoves`, wall placements
approved by `isLegalWall` and additionally guarded by the driver's
positive-wall-count check — each player's wall count stays between 0 and
its initial value 10. -/
theorem wall_counts_nonneg (s : GameState)
    (h : DriverReachable createInitialState s) :
    0 ≤ s.player0.walls ∧ s.player0.walls ≤ 10 ∧
    0 ≤ s.player1.walls ∧ s.player1.walls ≤ 10 := by
  unfold DriverReachable at h
  induction h with
  | refl => exact ⟨by decide, by decide, by decide, by decide⟩
  | tail hab hbc ih => exact driverStep_walls_bounds _ _ hbc ih

/-- Witness for amended C6: the initial state itself is driver-reachable
and satisfies the bounds. -/
theorem wall_counts_nonneg_witness :
    0 ≤ createInitialState.player0.walls ∧
    createInitialState.player0.walls ≤ 10 ∧
    0 ≤ createInitialState.player1.walls ∧
    createInitialState.player1.walls ≤ 10 :=
  wall_counts_nonneg createInitialState Relation.ReflTransGen.refl

set_option maxRecDepth 100000 in
set_option maxHeartbeats 2000000 in
/-- Counterexample to C6 as stated: `isLegalWall` never checks the acting
player's remaining wall count, so the 43 legality-approved transitions of
`c6Acts` (11 wall placements by player 0, with player 1 moving in
between) drive player 0's wall count to `-1` — a state reachable through
transitions all approved by the legality queries alone. -/
theorem wall_count_negative_reachable :
    Reachable createInitialState (playActions createInitialState c6Acts) ∧
    (playActions createInitialState c6Acts).player0.walls = -1 :=
  ⟨reachable_playActions createInitialState c6Acts (by decide), by decide⟩

set_option maxHeartbeats 2000000 in
/-- C3 (the code violates it for `winner = 0`): `sWon` is reached by
legal play, player 0 has won (`winner = some 0`), yet the driver's
`handleSquareClick` — whose guard tests the JavaScript truthiness of
`winner`, for which the value 0 is falsy — still accepts transitions: a
click on `(4,0)` selects the pawn and a click on `(4,1)` performs
`applyMove`, which moves the pawn and even resets `winner` to null. -/
theorem winner_zero_not_terminal :
    Reachable createInitialState sWon ∧
    sWon.winner = some 0 ∧
    (handleSquareClick (handleSquareClick sWon 4 0) 4 1).player0.x = 4 ∧
    (handleSquareClick (handleSquareClick sWon 4 0) 4 1).player0.y = 1 ∧
    (handleSquareClick (handleSquareClick sWon 4 0) 4 1).winner = none :=
  ⟨reachable_playActions createInitialState c3Moves (by decide), by decide,
    by decide, by decide, by decide⟩

/-- Witness for amended C7: player 0's opening move to `(4,7)` keeps
occupancy matching. -/
theorem occupancy_preserved_witness :
    OccupancyMatches (applyMove createInitialState 0 4 7) :=
  ((occupancy_preserved createInitialState 0 (by decide) (by decide) (by decide)
      (by decide) (by decide) (by decide)).1 ⟨4, 7, .normal⟩ (by decide)).1

/-- Counterexample to C7 as stated: the initial state's occupancy matches
the pawns, yet the (unvalidated) transition `applyMove(state, 0, 4, 0)` —
player 0 stepping onto player 1's occupied square, a destination
`getLegalMoves` never offers — produces a state whose occupancy no longer
matches: player 1's cell now holds identifier 1. -/
theorem occupancy_counterexample :
    OccupancyMatches createInitialState ∧
    ¬ OccupancyMatches (applyMove createInitialState 0 4 0) := by
  constructor <;> decide

end Quoridor
